import Mathlib

/-!
Verification of the log-table filter/search/sort pipeline (`LogTable` in the
renderer source).  All definitions below are shallow embeddings of the
TypeScript source: strings are Lean `String`, JS arrays are Lean `List`,
`undefined`-able values are `Option`, and a thrown JS exception is
`Except.error ()`.  The ECMAScript `RegExp` object is modelled abstractly by a
`RegexEngine`: `compileOk p` says whether `new RegExp(p, 'i')` succeeds, and
`test p m` models `new RegExp(p, 'i').test(m)`.  Universal theorems quantify
over every engine; concrete evaluations use `jsEngine`, which agrees with
ECMAScript on the metacharacter-free literal patterns appearing in them.
-/

/-- JS `s.split(' ')` on the character list: split on every single space,
keeping empty groups (`"a  b".split(' ') = ["a","","b"]`, `"".split(' ') = [""]`). -/
def splitSpaceChars : List Char → List (List Char)
  | [] => [[]]
  | c :: cs =>
    if c = ' ' then [] :: splitSpaceChars cs
    else
      match splitSpaceChars cs with
      | [] => [[c]]
      | g :: gs => (c :: g) :: gs

/-- JS `search.split(' ')`. -/
def jsSplitSpace (s : String) : List String :=
  (splitSpaceChars s.toList).map (fun l => ⟨l⟩)

/-- JS string falsiness: `!s` is true exactly for the empty string. -/
def strIsEmpty (s : String) : Bool :=
  s.toList.isEmpty

/-- JS `s.startsWith('!')`. -/
def strStartsBang (s : String) : Bool :=
  match s.toList with
  | [] => false
  | c :: _ => c == '!'

/-- JS `s.slice(1)`. -/
def strDrop1 (s : String) : String :=
  ⟨s.toList.drop 1⟩

/-- JS `s.length`. -/
def strLen (s : String) : Nat :=
  s.toList.length

/-- `param.startsWith('!') && param.length > 1`: the exclusion-term test of the
search engine. -/
def isExclusionTerm (param : String) : Bool :=
  strStartsBang param && decide (strLen param > 1)

/-- Abstract model of the ECMAScript `RegExp` object with the `'i'` flag:
`compileOk p` is whether `new RegExp(p, 'i')` succeeds (it throws a
`SyntaxError` on malformed patterns), `test p m` is `new RegExp(p, 'i').test(m)`. -/
structure RegexEngine where
  compileOk : String → Bool
  test : String → String → Bool

/-- Depth-counting balanced-parenthesis check, used by `jsEngine` as a model of
ECMAScript pattern validity: `new RegExp("(")` throws, every literal pattern
without parentheses compiles. -/
def parenCheck : List Char → Nat → Bool
  | [], 0 => true
  | [], _ + 1 => false
  | c :: cs, d =>
    if c = '(' then parenCheck cs (d + 1)
    else if c = ')' then
      match d with
      | 0 => false
      | d' + 1 => parenCheck cs d'
    else parenCheck cs d

/-- Case-insensitive occurrence of `needle` inside `hay` (character lists). -/
def subMatch (needle hay : List Char) : Bool :=
  (List.range (hay.length + 1)).any
    (fun i => ((hay.drop i).take needle.length) == needle)

/-- Concrete regex engine used to evaluate the code at concrete inputs.  It
agrees with ECMAScript for the patterns used in those evaluations: a
metacharacter-free pattern compiles and matches as a case-insensitive
substring, while `new RegExp("(", 'i')` throws. -/
def jsEngine : RegexEngine where
  compileOk p := parenCheck p.toList 0
  test p m := subMatch (p.toList.map Char.toLower) (m.toList.map Char.toLower)

instance {ε α : Type} [DecidableEq ε] [DecidableEq α] : DecidableEq (Except ε α) := fun x y =>
  match x, y with
  | .ok a, .ok b => if h : a = b then isTrue (by rw [h]) else isFalse (by simp [h])
  | .error a, .error b => if h : a = b then isTrue (by rw [h]) else isFalse (by simp [h])
  | .ok _, .error _ => isFalse (by simp)
  | .error _, .ok _ => isFalse (by simp)

/-- One log record (`LogEntry` of `interfaces.ts`), restricted to the fields the
pipeline reads. -/
structure LogEntry where
  index : Nat
  timestamp : String
  level : String
  message : String
deriving Repr, DecidableEq

/-- The record source (`ProcessedLogFile | MergedLogFile`), restricted to the
fields the pipeline reads. -/
structure LogFile where
  logType : String
  logEntries : List LogEntry
deriving Repr, DecidableEq

/-- `LevelFilter`: a JS object mapping level names to booleans, embedded as an
association list (JS object keys are unique). -/
def LevelFilter := List (String × Bool)

instance : DecidableEq LevelFilter := by
  unfold LevelFilter
  infer_instance

/-- JS property access `f[k]` on a `LevelFilter`: `none` is `undefined`. -/
def lookupLevel (f : LevelFilter) (k : String) : Option Bool :=
  match f with
  | [] => none
  | (k', v) :: rest => if k' = k then some v else lookupLevel rest k

/-- `LogTable.doSearchFilter`, body of the `searchParams.forEach` callback.
The state is the pair (current `searchRegex` pattern, current `list`): the
mutable `searchRegex` is reassigned only in the exclusion branch, the
inclusion branch filters with whatever pattern is current — exactly as in the
source.  `doSearch`/`doExclude` keep everything when the captured `search`
string is empty (`!search ||`). -/
def searchFilterStep (E : RegexEngine) (search : String)
    (st : String × List LogEntry) (param : String) :
    Except Unit (String × List LogEntry) :=
  if isExclusionTerm param then
    if E.compileOk (strDrop1 param) then
      Except.ok (strDrop1 param,
        st.2.filter (fun a => strIsEmpty search || !(E.test (strDrop1 param) a.message)))
    else Except.error ()
  else
    Except.ok (st.1,
      st.2.filter (fun a => strIsEmpty search || E.test st.1 a.message))

/-- `searchParams.forEach(...)` with a state-updating callback that can throw:
the thrown exception aborts the iteration and propagates. -/
def searchFold {σ : Type} (step : σ → String → Except Unit σ) :
    σ → List String → Except Unit σ
  | st, [] => Except.ok st
  | st, q :: rest =>
    match step st q with
    | Except.ok st' => searchFold step st' rest
    | Except.error e => Except.error e

/-- `LogTable.doSearchFilter`: initial `new RegExp(search || '', 'i')` (which
throws when the whole search string is not a valid pattern), then a
`forEach` over `search.split(' ')`. -/
def doSearchFilter (E : RegexEngine) (search : String) (list : List LogEntry) :
    Except Unit (List LogEntry) :=
  if E.compileOk search then
    Except.map Prod.snd
      (searchFold (searchFilterStep E search) (search, list) (jsSplitSpace search))
  else Except.error ()

/-- Indices `i` of `list` whose entry satisfies `p`, in order: the effect of one
`list.forEach((a, i) => { if p(a) foundIndices.push(i) })` pass. -/
def collectIndices (p : LogEntry → Bool) (list : List LogEntry) : List Nat :=
  (List.range list.length).filter
    (fun i => match list.get? i with | some a => p a | none => false)

/-- `LogTable.doSearchIndex`, body of the `searchParams.forEach` callback.  The
state is (current pattern, accumulated `foundIndices`); each pass walks the
FULL `list` (the list is never narrowed) and appends the indices it matches. -/
def searchIndexStep (E : RegexEngine) (search : String) (list : List LogEntry)
    (st : String × List Nat) (param : String) :
    Except Unit (String × List Nat) :=
  if isExclusionTerm param then
    if E.compileOk (strDrop1 param) then
      Except.ok (strDrop1 param,
        st.2 ++ collectIndices
          (fun a => strIsEmpty search || !(E.test (strDrop1 param) a.message)) list)
    else Except.error ()
  else
    Except.ok (st.1,
      st.2 ++ collectIndices (fun a => strIsEmpty search || E.test st.1 a.message) list)

/-- `LogTable.doSearchIndex`. -/
def doSearchIndex (E : RegexEngine) (search : String) (list : List LogEntry) :
    Except Unit (List Nat) :=
  if E.compileOk search then
    Except.map Prod.snd
      (searchFold (searchIndexStep E search list) (search, []) (jsSplitSpace search))
  else Except.error ()

/-- `LogTableProps` (the view parameters arriving from outside), restricted to
the fields the pipeline and its change detection read.  `logFile`, `levelFilter`
and `search` can be `undefined` at the guards the source has for them. -/
structure LogTableProps where
  logFile : Option LogFile
  levelFilter : Option LevelFilter
  search : Option String
  showOnlySearchResults : Bool
  searchIndex : Nat
deriving DecidableEq

/-- `LogTableState`, restricted to the fields the pipeline reads and writes. -/
structure LogTableState where
  sortedList : List LogEntry
  searchList : List Nat
  selectedIndex : Option Nat
  sortBy : Option String
  sortDirection : Option String
  ignoreSearchIndex : Bool
deriving DecidableEq

/-- `SortFilterListOptions`: every field optional, `undefined` by default. -/
structure SortFilterListOptions where
  sortBy : Option String := none
  sortDirection : Option String := none
  filter : Option LevelFilter := none
  search : Option String := none
  logFile : Option LogFile := none
  showOnlySearchResults : Option Bool := none

/-- Truthiness of a JS `string | undefined` value. -/
def strTruthyOpt (o : Option String) : Bool :=
  match o with
  | some s => !(strIsEmpty s)
  | none => false

/-- JS `a || b` on `string | undefined` values: `a` unless it is `undefined` or
the empty string. -/
def jsOrStr (a b : Option String) : Option String :=
  match a with
  | some s => if strIsEmpty s then b else some s
  | none => b

/-- JS `a || b` on object values: any object (even `{}`) is truthy. -/
def jsOrFilter (a b : Option LevelFilter) : Option LevelFilter :=
  match a with
  | some f => some f
  | none => b

/-- JS `a || b` on `logFile` object values. -/
def jsOrFile (a b : Option LogFile) : Option LogFile :=
  match a with
  | some f => some f
  | none => b

/-- JS `a !== undefined ? a : b`. -/
def undefOrStr (a b : Option String) : Option String :=
  match a with
  | some s => some s
  | none => b

/-- JS `a !== undefined ? a : b` for the boolean option. -/
def undefOrBool (a : Option Bool) (b : Bool) : Bool :=
  a.getD b

/-- The string a truthy `Option String` carries. -/
def optStr (o : Option String) : String :=
  o.getD ""

/-- `LogTable.shouldFilter` (after its `filter || this.props.levelFilter`
resolution): no filter object, or all values equal, means "do not filter". -/
def shouldFilter (filter : Option LevelFilter) : Bool :=
  match filter with
  | none => false
  | some f =>
    let allEnabled := f.all (fun kv => kv.2)
    let allDisabled := f.all (fun kv => !kv.2)
    !(allEnabled || allDisabled)

/-- The `doFilter` predicate of `sortFilterList`:
`(a.level && filter![a.level])` — kept only when the level is a non-empty
string and the filter maps it to `true`; a level with no entry is dropped. -/
def doFilterPred (filter : Option LevelFilter) (a : LogEntry) : Bool :=
  !(strIsEmpty a.level) && ((filter.bind (fun f => lookupLevel f a.level)) == some true)

/-- Total order on strings by code points, modelling the ascending order that
`localeCompare` induces inside `Array.prototype.sort`. -/
def charListLe : List Char → List Char → Bool
  | [], _ => true
  | _ :: _, [] => false
  | a :: as, b :: bs =>
    if a < b then true
    else if b < a then false
    else charListLe as bs

/-- `a.message.localeCompare(b.message)`-ascending comparison. -/
def msgLe (a b : LogEntry) : Bool :=
  charListLe a.message.toList b.message.toList

/-- `a.level.localeCompare(b.level)`-ascending comparison. -/
def lvlLe (a b : LogEntry) : Bool :=
  charListLe a.level.toList b.level.toList

/-- Insertion into an ascending list. -/
def insertLe (le : LogEntry → LogEntry → Bool) (a : LogEntry) :
    List LogEntry → List LogEntry
  | [] => [a]
  | b :: bs => if le a b then a :: b :: bs else b :: insertLe le a bs

/-- Model of `Array.prototype.sort` with an ascending comparator. -/
def sortLe (le : LogEntry → LogEntry → Bool) (l : List LogEntry) : List LogEntry :=
  l.foldr (insertLe le) []

/-- The Sort step of `sortFilterList`: `message` and `level` sort by their
comparators, `index`, `timestamp` and everything else change nothing. -/
def sortStep (sortBy : Option String) (l : List LogEntry) : List LogEntry :=
  if sortBy == some "message" then sortLe msgLe l
  else if sortBy == some "level" then sortLe lvlLe l
  else l

/-- The Reverse step of `sortFilterList`: reverse exactly when the direction is
`DESC`. -/
def reverseStep (sortDirection : Option String) (l : List LogEntry) : List LogEntry :=
  if sortDirection == some "DESC" then l.reverse else l

/-- `LogTable.sortFilterList`: resolve each option against props/state the way
the source does (`||` for the truthiness-checked ones, `!== undefined` for
`search` and `showOnlySearchResults`), return `[]` on an absent file, take the
fast path when nothing discriminates, otherwise Filter → Search (only when
shown results are restricted to matches) → Sort → Reverse. -/
def sortFilterList (E : RegexEngine) (p : LogTableProps) (s : LogTableState)
    (options : SortFilterListOptions) : Except Unit (List LogEntry) :=
  let logFile := jsOrFile options.logFile p.logFile
  let filter := jsOrFilter options.filter p.levelFilter
  let search := undefOrStr options.search p.search
  let sortBy := jsOrStr options.sortBy s.sortBy
  let showOnly := undefOrBool options.showOnlySearchResults p.showOnlySearchResults
  let sortDirection := jsOrStr options.sortDirection s.sortDirection
  match logFile with
  | none => Except.ok []
  | some file =>
    let sf := shouldFilter filter
    let noSort := (!(strTruthyOpt sortBy) || sortBy == some "index")
      && (!(strTruthyOpt sortDirection) || sortDirection == some "ASC")
    if noSort && !sf && !(strTruthyOpt search) then Except.ok file.logEntries
    else
      let l1 := if sf then file.logEntries.filter (doFilterPred filter)
                else file.logEntries
      (if strTruthyOpt search && showOnly then doSearchFilter E (optStr search) l1
       else Except.ok l1).map
        (fun l2 => reverseStep sortDirection (sortStep sortBy l2))

/-- Modelled from the spec: `didFilterChange` (`utils/did-filter-change`, whose
source is not under `src/`) — "the level filter actually changed
value-by-value (not merely object identity)": some level key of either map is
mapped differently by the two. -/
def didFilterChange (a b : Option LevelFilter) : Bool :=
  let keys := (a.getD []).map Prod.fst ++ (b.getD []).map Prod.fst
  keys.any (fun k => (a.bind (fun f => lookupLevel f k)) != (b.bind (fun f => lookupLevel f k)))

/-- `searchChanged` of `componentWillReceiveProps`. -/
def searchChanged (p n : LogTableProps) : Bool :=
  p.search != n.search || p.showOnlySearchResults != n.showOnlySearchResults

/-- `fileChanged` of `componentWillReceiveProps`: a file appeared, or both are
present and differ in entry count or in `logType`. -/
def fileChanged (p n : LogTableProps) : Bool :=
  (p.logFile.isNone && n.logFile.isSome)
  || (match p.logFile, n.logFile with
      | some a, some b => a.logEntries.length != b.logEntries.length || a.logType != b.logType
      | _, _ => false)

/-- The recomputation trigger of `componentWillReceiveProps`:
`filterChanged || searchChanged || fileChanged`. -/
def shouldRecompute (p n : LogTableProps) : Bool :=
  didFilterChange p.levelFilter n.levelFilter || searchChanged p n || fileChanged p n

/-- `LogTable.componentWillReceiveProps` as a state transition: when the
trigger fires re-run the pipeline with the next props as options (sort fields
untouched, so they resolve to the current state) and rebuild the search-index
list when matches are highlighted rather than exclusively shown; finally reset
`ignoreSearchIndex` when the cursor moved. -/
def componentWillReceiveProps (E : RegexEngine) (p n : LogTableProps)
    (s : LogTableState) : Except Unit LogTableState :=
  (if shouldRecompute p n then
    (sortFilterList E p s
      { showOnlySearchResults := some n.showOnlySearchResults,
        filter := n.levelFilter, search := n.search, logFile := n.logFile }).bind
      (fun sortedList =>
        (if !n.showOnlySearchResults && strTruthyOpt n.search then
          doSearchIndex E (optStr n.search) sortedList
        else Except.ok []).map
          (fun searchList => { s with sortedList := sortedList, searchList := searchList }))
  else Except.ok s).map
    (fun s1 => if p.searchIndex != n.searchIndex then { s1 with ignoreSearchIndex := false } else s1)

/-- `LogTable.onSortChange`: when the sort key or direction changed, re-run
`sortFilterList` with only the sort options set and store the new sort state;
otherwise nothing happens. -/
def onSortChange (E : RegexEngine) (p : LogTableProps) (s : LogTableState)
    (sortBy sortDirection : String) : Except Unit LogTableState :=
  if s.sortBy != some sortBy || s.sortDirection != some sortDirection then
    (sortFilterList E p s { sortBy := some sortBy, sortDirection := some sortDirection }).map
      (fun l => { s with sortBy := some sortBy, sortDirection := some sortDirection,
                         sortedList := l })
  else Except.ok s

/-- `LogTable.onRowClick` (the state part): select the row and suspend
auto-scroll-to-match; the displayed list and the match list are untouched. -/
def onRowClick (s : LogTableState) (index : Nat) : LogTableState :=
  { s with selectedIndex := some index, ignoreSearchIndex := true }

/-- The spec's "last-known filtered/searched base sequence" for unchanged view
parameters: the Filter stage then the Search stage (in filtering mode, only
when only matches are shown), before any Sort or Reverse. -/
def filterSearchBase (E : RegexEngine) (p : LogTableProps) :
    Except Unit (List LogEntry) :=
  match p.logFile with
  | none => Except.ok []
  | some file =>
    let l1 := if shouldFilter p.levelFilter then
                file.logEntries.filter (doFilterPred p.levelFilter)
              else file.logEntries
    if strTruthyOpt p.search && p.showOnlySearchResults then
      doSearchFilter E (optStr p.search) l1
    else Except.ok l1

/-- Whether a pipeline call returned a value (`ok`) rather than throwing. -/
def isOkE {α : Type} (e : Except Unit α) : Bool :=
  match e with
  | Except.ok _ => true
  | Except.error _ => false

/-- The component's initial state (`constructor`): empty lists, sort by
`index` ascending. -/
def st0 : LogTableState :=
  { sortedList := [], searchList := [], selectedIndex := none,
    sortBy := some "index", sortDirection := some "ASC", ignoreSearchIndex := false }

/-- Fixture: three records on the three severity levels. -/
def entriesMixed : List LogEntry :=
  [⟨0, "t", "info", "a"⟩, ⟨1, "t", "error", "b"⟩, ⟨2, "t", "debug", "c"⟩]

/-- Fixture: record source holding `entriesMixed`. -/
def fileMixed : LogFile := ⟨"browser", entriesMixed⟩

/-- Fixture: a discriminating level filter with no entry for `debug`. -/
def filterPartial : LevelFilter := [("info", true), ("error", false)]

/-- Fixture: view parameters carrying `fileMixed` and `filterPartial`. -/
def propsMixed : LogTableProps := ⟨some fileMixed, some filterPartial, none, false, 0⟩

/-- Fixture: two-record source with messages `a` and `b`. -/
def fileAB : LogFile := ⟨"browser", [⟨0, "t", "info", "a"⟩, ⟨1, "t", "info", "b"⟩]⟩

/-- Fixture: view parameters carrying `fileAB` and a non-discriminating filter. -/
def propsAB : LogTableProps := ⟨some fileAB, some [("info", true)], none, false, 0⟩

/-- Fixture: view parameters with a search string present but matches only
highlighted (`showOnlySearchResults` off). -/
def propsSearchOff : LogTableProps :=
  ⟨some ⟨"browser", [⟨0, "t", "info", "a"⟩]⟩, some [("info", true)], some "x", false, 0⟩

lemma sortStep_nil (sb : Option String) : sortStep sb [] = [] := by
  unfold sortStep
  split
  · rfl
  · split
    · rfl
    · rfl

lemma reverseStep_nil (sd : Option String) : reverseStep sd [] = [] := by
  unfold reverseStep
  split <;> rfl

lemma isOkE_map {α β : Type} (f : α → β) (e : Except Unit α) :
    isOkE (Except.map f e) = isOkE e := by
  cases e <;> rfl

lemma searchFold_cons {σ : Type} (step : σ → String → Except Unit σ) (st : σ)
    (q : String) (rest : List String) :
    searchFold step st (q :: rest) =
      match step st q with
      | Except.ok st' => searchFold step st' rest
      | Except.error e => Except.error e := rfl

lemma searchFilterStep_incl (E : RegexEngine) (search : String)
    (st : String × List LogEntry) (q : String) (hq : isExclusionTerm q = false) :
    searchFilterStep E search st q =
      Except.ok (st.1, st.2.filter (fun a => strIsEmpty search || E.test st.1 a.message)) := by
  simp [searchFilterStep, hq]

lemma searchFilterStep_excl (E : RegexEngine) (search : String)
    (st : String × List LogEntry) (q : String) (hq : isExclusionTerm q = true)
    (hc : E.compileOk (strDrop1 q) = true) :
    searchFilterStep E search st q =
      Except.ok (strDrop1 q,
        st.2.filter (fun a => strIsEmpty search || !(E.test (strDrop1 q) a.message))) := by
  simp [searchFilterStep, hq, hc]

lemma searchFilterStep_bad (E : RegexEngine) (search : String)
    (st : String × List LogEntry) (q : String) (hq : isExclusionTerm q = true)
    (hc : E.compileOk (strDrop1 q) = false) :
    searchFilterStep E search st q = Except.error () := by
  simp [searchFilterStep, hq, hc]

lemma searchFoldFilter_isOk (E : RegexEngine) (search : String) (params : List String) :
    ∀ st : String × List LogEntry,
      isOkE (searchFold (searchFilterStep E search) st params) =
        params.all (fun q => !(isExclusionTerm q) || E.compileOk (strDrop1 q)) := by
  induction params with
  | nil => intro st; rfl
  | cons q rest ih =>
    intro st
    rw [searchFold_cons]
    cases hq : isExclusionTerm q with
    | false =>
      rw [searchFilterStep_incl E search st q hq]
      simp [ih, hq]
    | true =>
      cases hc : E.compileOk (strDrop1 q) with
      | false =>
        rw [searchFilterStep_bad E search st q hq hc]
        simp [isOkE, hq, hc]
      | true =>
        rw [searchFilterStep_excl E search st q hq hc]
        simp [ih, hq, hc]

lemma searchIndexStep_incl (E : RegexEngine) (search : String) (list : List LogEntry)
    (st : String × List Nat) (q : String) (hq : isExclusionTerm q = false) :
    searchIndexStep E search list st q =
      Except.ok (st.1,
        st.2 ++ collectIndices (fun a => strIsEmpty search || E.test st.1 a.message) list) := by
  simp [searchIndexStep, hq]

lemma searchIndexStep_excl (E : RegexEngine) (search : String) (list : List LogEntry)
    (st : String × List Nat) (q : String) (hq : isExclusionTerm q = true)
    (hc : E.compileOk (strDrop1 q) = true) :
    searchIndexStep E search list st q =
      Except.ok (strDrop1 q,
        st.2 ++ collectIndices
          (fun a => strIsEmpty search || !(E.test (strDrop1 q) a.message)) list) := by
  simp [searchIndexStep, hq, hc]

lemma searchIndexStep_bad (E : RegexEngine) (search : String) (list : List LogEntry)
    (st : String × List Nat) (q : String) (hq : isExclusionTerm q = true)
    (hc : E.compileOk (strDrop1 q) = false) :
    searchIndexStep E search list st q = Except.error () := by
  simp [searchIndexStep, hq, hc]

lemma searchFoldIndex_isOk (E : RegexEngine) (search : String) (list : List LogEntry)
    (params : List String) :
    ∀ st : String × List Nat,
      isOkE (searchFold (searchIndexStep E search list) st params) =
        params.all (fun q => !(isExclusionTerm q) || E.compileOk (strDrop1 q)) := by
  induction params with
  | nil => intro st; rfl
  | cons q rest ih =>
    intro st
    rw [searchFold_cons]
    cases hq : isExclusionTerm q with
    | false =>
      rw [searchIndexStep_incl E search list st q hq]
      simp [ih, hq]
    | true =>
      cases hc : E.compileOk (strDrop1 q) with
      | false =>
        rw [searchIndexStep_bad E search list st q hq hc]
        simp [isOkE, hq, hc]
      | true =>
        rw [searchIndexStep_excl E search list st q hq hc]
        simp [ih, hq, hc]

lemma strStartsBang_ne_empty {S : String} (h : strStartsBang S = true) :
    strIsEmpty S = false := by
  unfold strStartsBang at h
  unfold strIsEmpty
  revert h
  cases S.toList with
  | nil => intro h; simp at h
  | cons c t => intro h; rfl

lemma strDrop1_ne_empty {S : String} (h : 1 < strLen S) :
    strIsEmpty (strDrop1 S) = false := by
  unfold strLen at h
  unfold strIsEmpty strDrop1
  revert h
  cases S.toList with
  | nil => intro h; simp at h
  | cons c t =>
    cases t with
    | nil => intro h; simp at h
    | cons d t' => intro h; rfl

lemma doSearchFilter_single_incl (E : RegexEngine) (S : String) (R : List LogEntry)
    (hne : strIsEmpty S = false) (hbang : strStartsBang S = false)
    (hsplit : jsSplitSpace S = [S]) (hok : E.compileOk S = true) :
    doSearchFilter E S R = Except.ok (R.filter (fun a => E.test S a.message)) := by
  have hex : isExclusionTerm S = false := by
    unfold isExclusionTerm
    rw [hbang]
    rfl
  unfold doSearchFilter
  rw [hsplit, if_pos hok, searchFold_cons, searchFilterStep_incl E S (S, R) S hex]
  simp only [searchFold, Except.map, hne, Bool.false_or]

lemma doSearchFilter_single_excl (E : RegexEngine) (S : String) (R : List LogEntry)
    (hne : strIsEmpty S = false) (hex : isExclusionTerm S = true)
    (hsplit : jsSplitSpace S = [S]) (hokS : E.compileOk S = true)
    (hokx : E.compileOk (strDrop1 S) = true) :
    doSearchFilter E S R
      = Except.ok (R.filter (fun a => !(E.test (strDrop1 S) a.message))) := by
  unfold doSearchFilter
  rw [hsplit, if_pos hokS, searchFold_cons, searchFilterStep_excl E S (S, R) S hex hokx]
  simp only [searchFold, Except.map, hne, Bool.false_or]

lemma doSearchIndex_single_incl (E : RegexEngine) (S : String) (R : List LogEntry)
    (hne : strIsEmpty S = false) (hbang : strStartsBang S = false)
    (hsplit : jsSplitSpace S = [S]) (hok : E.compileOk S = true) :
    doSearchIndex E S R
      = Except.ok (collectIndices (fun a => E.test S a.message) R) := by
  have hex : isExclusionTerm S = false := by
    unfold isExclusionTerm
    rw [hbang]
    rfl
  unfold doSearchIndex
  rw [hsplit, if_pos hok, searchFold_cons, searchIndexStep_incl E S R (S, []) S hex]
  simp only [searchFold, Except.map, hne, Bool.false_or, List.nil_append]

lemma collectIndices_mem (p : LogEntry → Bool) (l : List LogEntry) (i : Nat) :
    i ∈ collectIndices p l ↔ ∃ a, l.get? i = some a ∧ p a = true := by
  unfold collectIndices
  rw [List.mem_filter, List.mem_range]
  constructor
  · rintro ⟨hlt, hm⟩
    cases hg : l.get? i with
    | none => rw [hg] at hm; simp at hm
    | some a => rw [hg] at hm; exact ⟨a, rfl, hm⟩
  · rintro ⟨a, hg, hp⟩
    have hlt : i < l.length := by
      by_contra hge
      rw [List.get?_eq_none.mpr (Nat.le_of_not_lt hge)] at hg
      exact Option.noConfusion hg
    refine ⟨hlt, ?_⟩
    rw [hg]
    exact hp

lemma collectIndices_sorted (p : LogEntry → Bool) (l : List LogEntry) :
    List.Pairwise (· < ·) (collectIndices p l) :=
  List.Pairwise.sublist (List.filter_sublist _) (List.pairwise_lt_range _)

lemma filter_not_partition_length (p : LogEntry → Bool) (R : List LogEntry) :
    (R.filter (fun a => !(p a))).length + (R.filter p).length = R.length := by
  induction R with
  | nil => rfl
  | cons a t ih =>
    cases hp : p a <;> simp [List.filter_cons, hp] <;> omega

/-- Claim C1: evaluation of the code at the spec's Scenario 2.  The filtering
search `"foo !bar"` over records `"foo bar"`, `"foo"`, `"bar"` returns the
empty list, not just the record `"foo"`: the inclusion pass for `"foo"` tests
against the regex built from the whole search string `"foo !bar"`, which no
record's message matches. -/
theorem scenario2_search_filter_empty :
    doSearchFilter jsEngine "foo !bar"
      [⟨0, "t", "info", "foo bar"⟩, ⟨1, "t", "info", "foo"⟩, ⟨2, "t", "info", "bar"⟩]
      = Except.ok [] := by decide

/-- Claim C2: the intersecting-chain property fails on the code.  Chaining
`doSearchFilter` with `"a"` and then `"b"` keeps the record `"ab"`, but the
single concatenated search `"a b"` drops it, because both inclusion passes of
`"a b"` test against the one regex built from `"a b"`. -/
theorem search_chain_differs_from_concatenation :
    doSearchFilter jsEngine "a" [⟨0, "t", "info", "ab"⟩] = Except.ok [⟨0, "t", "info", "ab"⟩]
    ∧ doSearchFilter jsEngine "b" [⟨0, "t", "info", "ab"⟩] = Except.ok [⟨0, "t", "info", "ab"⟩]
    ∧ doSearchFilter jsEngine "a b" [⟨0, "t", "info", "ab"⟩] = Except.ok [] := by
  refine ⟨by decide, by decide, by decide⟩

/-- Claim C3: `doSearchIndex` does not apply the intersecting-term logic of
`doSearchFilter`.  For the search `"a b"` over the single record `"a b"`,
the filtering mode keeps the record once, but the indexing mode pushes its
position once per term pass, returning `[0, 0]` instead of `[0]`. -/
theorem search_index_duplicates_positions :
    doSearchIndex jsEngine "a b" [⟨0, "t", "info", "a b"⟩] = Except.ok [0, 0]
    ∧ doSearchFilter jsEngine "a b" [⟨0, "t", "info", "a b"⟩]
        = Except.ok [⟨0, "t", "info", "a b"⟩] := by
  refine ⟨by decide, by decide⟩

/-- Claim C4 counterexample: a malformed search term does crash the pipeline.
`new RegExp("(", 'i')` throws, and both search functions propagate the
exception to the caller instead of returning a value. -/
theorem search_raises_on_malformed_regex :
    doSearchFilter jsEngine "(" [⟨0, "t", "info", "m"⟩] = Except.error ()
    ∧ doSearchIndex jsEngine "(" [⟨0, "t", "info", "m"⟩] = Except.error () := by
  refine ⟨by decide, by decide⟩

/-- Claim C4 as amended: `doSearchFilter` and `doSearchIndex` return a value
exactly when the whole search string compiles as a regex and the pattern of
every exclusion term compiles; a malformed pattern makes them raise to the
caller rather than degrade. -/
theorem search_returns_value_iff_terms_compile (E : RegexEngine) (S : String)
    (R : List LogEntry) :
    isOkE (doSearchFilter E S R)
      = (E.compileOk S
          && (jsSplitSpace S).all (fun q => !(isExclusionTerm q) || E.compileOk (strDrop1 q)))
    ∧ isOkE (doSearchIndex E S R)
      = (E.compileOk S
          && (jsSplitSpace S).all (fun q => !(isExclusionTerm q) || E.compileOk (strDrop1 q))) := by
  constructor
  · unfold doSearchFilter
    cases hc : E.compileOk S with
    | false => simp [isOkE]
    | true => simp [isOkE_map, searchFoldFilter_isOk]
  · unfold doSearchIndex
    cases hc : E.compileOk S with
    | false => simp [isOkE]
    | true => simp [isOkE_map, searchFoldIndex_isOk]

/-- Claim C9 counterexample: the complement property fails when the remainder
after the leading `!` itself starts with `!`.  For `S = "!!y"` the term is
parsed as an exclusion with pattern `"!y"`, and `"!y"` alone is parsed as an
exclusion with pattern `"y"` rather than an inclusion, so the record `"!y"`
is excluded by both searches and lands in neither result. -/
theorem double_bang_not_complement :
    doSearchFilter jsEngine "!!y" [⟨0, "t", "info", "!y"⟩] = Except.ok []
    ∧ doSearchFilter jsEngine "!y" [⟨0, "t", "info", "!y"⟩] = Except.ok [] := by
  refine ⟨by decide, by decide⟩

/-- Claim C9 as amended: for a single-term search `S = "!x"` (no whitespace,
length above one) whose remainder `x` does not itself start with `!` (and
both `S` and `x` compile), `doSearchFilter S R` is exactly the complement
within `R` of `doSearchFilter x R`: the two results are the filters of `R`
by complementary predicates and their lengths sum to the length of `R`, so
every record of `R` lands in exactly one of them. -/
theorem single_exclusion_complements_inclusion (E : RegexEngine) (S : String)
    (R : List LogEntry)
    (hbang : strStartsBang S = true) (hlen : 1 < strLen S)
    (hxbang : strStartsBang (strDrop1 S) = false)
    (hsplitS : jsSplitSpace S = [S])
    (hsplitx : jsSplitSpace (strDrop1 S) = [strDrop1 S])
    (hokS : E.compileOk S = true) (hokx : E.compileOk (strDrop1 S) = true) :
    doSearchFilter E S R
        = Except.ok (R.filter (fun a => !(E.test (strDrop1 S) a.message)))
    ∧ doSearchFilter E (strDrop1 S) R
        = Except.ok (R.filter (fun a => E.test (strDrop1 S) a.message))
    ∧ (R.filter (fun a => !(E.test (strDrop1 S) a.message))).length
        + (R.filter (fun a => E.test (strDrop1 S) a.message)).length = R.length := by
  have hex : isExclusionTerm S = true := by
    unfold isExclusionTerm
    rw [hbang]
    simp [hlen]
  exact ⟨doSearchFilter_single_excl E S R (strStartsBang_ne_empty hbang) hex hsplitS hokS hokx,
    doSearchFilter_single_incl E (strDrop1 S) R (strDrop1_ne_empty hlen) hxbang hsplitx hokx,
    filter_not_partition_length _ R⟩

/-- Witness for the amended Claim C9 at `S = "!b"` over records `"ab"`, `"c"`:
the exclusion search keeps exactly the record `"c"`. -/
theorem single_exclusion_witness :
    doSearchFilter jsEngine "!b" [⟨0, "t", "info", "ab"⟩, ⟨1, "t", "info", "c"⟩]
      = Except.ok [⟨1, "t", "info", "c"⟩] := by
  have h := (single_exclusion_complements_inclusion jsEngine "!b"
    [⟨0, "t", "info", "ab"⟩, ⟨1, "t", "info", "c"⟩]
    (by decide) (by decide) (by decide) (by decide) (by decide) (by decide) (by decide)).1
  exact h.trans (by decide)

/-- Claim C10: a search string that is one inclusion term (non-empty, no
whitespace, no leading `!`, compiling as a regex) is handled correctly:
`doSearchFilter` keeps exactly the matching records in their original
relative order, and `doSearchIndex` returns exactly the matching positions,
strictly increasing, each exactly once. -/
theorem single_inclusion_search_correct (E : RegexEngine) (S : String)
    (R : List LogEntry)
    (hne : strIsEmpty S = false) (hbang : strStartsBang S = false)
    (hsplit : jsSplitSpace S = [S]) (hok : E.compileOk S = true) :
    doSearchFilter E S R = Except.ok (R.filter (fun a => E.test S a.message))
    ∧ doSearchIndex E S R = Except.ok (collectIndices (fun a => E.test S a.message) R)
    ∧ List.Pairwise (· < ·) (collectIndices (fun a => E.test S a.message) R)
    ∧ ∀ i : Nat, i ∈ collectIndices (fun a => E.test S a.message) R ↔
        ∃ a, R.get? i = some a ∧ E.test S a.message = true :=
  ⟨doSearchFilter_single_incl E S R hne hbang hsplit hok,
    doSearchIndex_single_incl E S R hne hbang hsplit hok,
    collectIndices_sorted _ R,
    fun i => collectIndices_mem _ R i⟩

lemma sortStep_index (l : List LogEntry) : sortStep (some "index") l = l := by
  unfold sortStep
  rfl

lemma reverseStep_asc (l : List LogEntry) : reverseStep (some "ASC") l = l := by
  unfold reverseStep
  rfl

lemma sortStep_none (l : List LogEntry) : sortStep none l = l := by
  unfold sortStep
  rfl

lemma reverseStep_none (l : List LogEntry) : reverseStep none l = l := by
  unfold reverseStep
  rfl

lemma sortFilterList_sort_options (E : RegexEngine) (p : LogTableProps)
    (s : LogTableState) (b d : String)
    (hb : strIsEmpty b = false) (hd : strIsEmpty d = false) :
    sortFilterList E p s { sortBy := some b, sortDirection := some d } =
      (filterSearchBase E p).map
        (fun l => reverseStep (some d) (sortStep (some b) l)) := by
  have hsb : jsOrStr (some b) s.sortBy = some b := by simp [jsOrStr, hb]
  have hsd : jsOrStr (some d) s.sortDirection = some d := by simp [jsOrStr, hd]
  have htb : strTruthyOpt (some b) = true := by simp [strTruthyOpt, hb]
  have htd : strTruthyOpt (some d) = true := by simp [strTruthyOpt, hd]
  cases hf : p.logFile with
  | none =>
    simp [sortFilterList, filterSearchBase, hf, jsOrFile, Except.map,
      sortStep_nil, reverseStep_nil]
  | some file =>
    simp only [sortFilterList, filterSearchBase, hf, jsOrFile, jsOrFilter, undefOrStr,
      undefOrBool, Option.getD, hsb, hsd, htb, htd, Bool.not_true, Bool.false_or]
    split
    next hpos =>
      simp only [Bool.and_eq_true, beq_iff_eq, Option.some.injEq] at hpos
      obtain ⟨⟨⟨hbi, hdi⟩, hsf⟩, hts⟩ := hpos
      subst hbi
      subst hdi
      rw [Bool.not_eq_true'] at hsf hts
      simp [hsf, hts, Except.map, sortStep_index, reverseStep_asc]
    next => rfl

/-- Claim C7: when the sort key or direction changes alone (all other view
parameters and the record source unchanged, as `onSortChange` reads them from
the current props), the resulting displayed sequence equals the Sort step plus
reversal-if-descending applied to the filtered/searched base sequence that the
unchanged parameters determine. -/
theorem sort_change_recomputes_sort_over_base (E : RegexEngine) (p : LogTableProps)
    (s : LogTableState) (b d : String)
    (hchange : s.sortBy ≠ some b ∨ s.sortDirection ≠ some d)
    (hb : strIsEmpty b = false) (hd : strIsEmpty d = false) :
    (onSortChange E p s b d).map (fun st => st.sortedList) =
      (filterSearchBase E p).map
        (fun l => reverseStep (some d) (sortStep (some b) l)) := by
  have hcond : (s.sortBy != some b || s.sortDirection != some d) = true := by
    rw [Bool.or_eq_true, bne_iff_ne, bne_iff_ne]
    exact hchange
  unfold onSortChange
  rw [if_pos hcond, sortFilterList_sort_options E p s b d hb hd]
  cases filterSearchBase E p <;> simp [Except.map]

/-- Witness for Claim C7: switching `propsAB` to `message`/`DESC` from the
default sort state yields the base records sorted by message and reversed. -/
theorem sort_change_witness :
    (onSortChange jsEngine propsAB st0 "message" "DESC").map (fun st => st.sortedList)
      = Except.ok [⟨1, "t", "info", "b"⟩, ⟨0, "t", "info", "a"⟩] := by
  have h := sort_change_recomputes_sort_over_base jsEngine propsAB st0 "message" "DESC"
    (Or.inl (by decide)) (by decide) (by decide)
  exact h.trans (by decide)

lemma sortFilterList_noop (E : RegexEngine) (p : LogTableProps)
    (s : LogTableState) (file : LogFile)
    (hfile : p.logFile = some file)
    (hb : s.sortBy = none ∨ s.sortBy = some "index")
    (hd : s.sortDirection = none ∨ s.sortDirection = some "ASC")
    (hsf : shouldFilter p.levelFilter = false)
    (hs : (strTruthyOpt p.search && p.showOnlySearchResults) = false) :
    sortFilterList E p s {} = Except.ok file.logEntries := by
  have h1 : (!(strTruthyOpt s.sortBy) || s.sortBy == some "index") = true := by
    rcases hb with h | h <;> simp [h, strTruthyOpt]
  have h2 : (!(strTruthyOpt s.sortDirection) || s.sortDirection == some "ASC") = true := by
    rcases hd with h | h <;> simp [h, strTruthyOpt]
  cases hts : strTruthyOpt p.search with
  | false =>
    simp [sortFilterList, jsOrFile, jsOrFilter, undefOrStr, undefOrBool, jsOrStr,
      hfile, h1, h2, hsf, hts]
  | true =>
    rw [hts] at hs
    rw [Bool.true_and] at hs
    simp only [sortFilterList, jsOrFile, jsOrFilter, undefOrStr, undefOrBool, Option.getD,
      jsOrStr, hfile, h1, h2, hsf, hts, hs, Bool.and_true, Bool.and_false, Bool.not_true,
      Bool.false_and, Bool.and_self, if_false, Bool.false_eq_true, Except.map]
    rcases hb with h | h <;> rcases hd with h' | h' <;>
      simp [h, h', sortStep_none, sortStep_index, reverseStep_none, reverseStep_asc]

/-- Claim C8: with sort key `index` (or unset), ascending (or unset) direction,
a non-discriminating level filter and no search-as-filter in effect, the
pipeline returns the record source's sequence unchanged. -/
theorem default_view_fast_path_identity (E : RegexEngine) (p : LogTableProps)
    (s : LogTableState) (file : LogFile)
    (hfile : p.logFile = some file)
    (hb : s.sortBy = none ∨ s.sortBy = some "index")
    (hd : s.sortDirection = none ∨ s.sortDirection = some "ASC")
    (hsf : shouldFilter p.levelFilter = false)
    (hs : (strTruthyOpt p.search && p.showOnlySearchResults) = false) :
    sortFilterList E p s {} = Except.ok file.logEntries :=
  sortFilterList_noop E p s file hfile hb hd hsf hs

/-- Witness for Claim C8: with a search string present but `onlyShowMatches`
off, default sort and an all-enabled filter, the pipeline returns the source
sequence unchanged. -/
theorem fast_path_witness :
    sortFilterList jsEngine propsSearchOff st0 {} = Except.ok [⟨0, "t", "info", "a"⟩] :=
  default_view_fast_path_identity jsEngine propsSearchOff st0
    ⟨"browser", [⟨0, "t", "info", "a"⟩]⟩ (by decide) (Or.inr (by decide))
    (Or.inr (by decide)) (by decide) (by decide)

/-- Claim C6 counterexample: a level-filter map missing expected level keys is
NOT treated as "no filter": with `{info: true, error: false}` the record at
level `debug` (which has no entry) is dropped, so the stage does not return
the record list unchanged. -/
theorem missing_level_dropped_not_noop :
    sortFilterList jsEngine
      { logFile := some ⟨"browser", [⟨0, "t", "debug", "m"⟩]⟩,
        levelFilter := some [("info", true), ("error", false)],
        search := none, showOnlySearchResults := false, searchIndex := 0 }
      st0 {} = Except.ok []
    ∧ (Except.ok [⟨0, "t", "debug", "m"⟩] : Except Unit (List LogEntry))
        ≠ Except.ok [] := by
  refine ⟨by decide, by decide⟩

/-- Claim C6 as amended: only a filter map whose values are all equal (or an
absent map) is treated as "no filter" and leaves the records unchanged; a
discriminating map filters fail-closed, keeping exactly the records with a
non-empty level mapped to `true` and dropping records whose level has no
entry. -/
theorem filter_stage_policy (E : RegexEngine) (p : LogTableProps) (s : LogTableState)
    (f : LevelFilter) (file : LogFile)
    (hfile : p.logFile = some file) (hfilter : p.levelFilter = some f)
    (hsearch : p.search = none)
    (hb : s.sortBy = some "index") (hd : s.sortDirection = some "ASC") :
    sortFilterList E p s {} =
      Except.ok (if f.all (fun kv => kv.2) || f.all (fun kv => !kv.2)
        then file.logEntries
        else file.logEntries.filter (doFilterPred (some f))) := by
  cases hall : (f.all (fun kv => kv.2) || f.all (fun kv => !kv.2)) with
  | true =>
    have hsf : shouldFilter (some f) = false := by simp [shouldFilter, hall]
    rw [if_pos rfl]
    exact sortFilterList_noop E p s file hfile (Or.inr hb) (Or.inr hd)
      (by rw [hfilter]; exact hsf) (by rw [hsearch]; rfl)
  | false =>
    have hsf : shouldFilter (some f) = true := by simp [shouldFilter, hall]
    simp [sortFilterList, jsOrFile, jsOrFilter, undefOrStr, undefOrBool, jsOrStr,
      hfile, hfilter, hsearch, hb, hd, hsf, hall, strTruthyOpt, Except.map,
      sortStep_index, reverseStep_asc]

/-- Witness for the amended Claim C6: the discriminating filter
`{info: true, error: false}` over records at levels info/error/debug keeps
exactly the info record. -/
theorem filter_stage_policy_witness :
    sortFilterList jsEngine propsMixed st0 {} = Except.ok [⟨0, "t", "info", "a"⟩] := by
  have h := filter_stage_policy jsEngine propsMixed st0 filterPartial fileMixed
    (by decide) (by decide) (by decide) (by decide) (by decide)
  exact h.trans (by decide)

lemma didFilterChange_self (a : Option LevelFilter) : didFilterChange a a = false := by
  simp [didFilterChange]

lemma fileChanged_self (p : LogTableProps) : fileChanged p p = false := by
  unfold fileChanged
  cases p.logFile <;> simp

lemma shouldRecompute_self (p : LogTableProps) : shouldRecompute p p = false := by
  unfold shouldRecompute searchChanged
  simp [didFilterChange_self, fileChanged_self]

/-- Claim C5 counterexample: replacing the record source by a different source
with the same length and the same logical type is an identity/content change
that the coordinator does not detect: `shouldRecompute` is `false`, the
transition leaves the state untouched, and no pipeline run happens, although
the two sources differ. -/
theorem content_change_not_detected :
    shouldRecompute
      ⟨some ⟨"browser", [⟨0, "t", "info", "a"⟩]⟩, some [("info", true)], none, false, 0⟩
      ⟨some ⟨"browser", [⟨0, "t", "info", "b"⟩]⟩, some [("info", true)], none, false, 0⟩
      = false
    ∧ (⟨some ⟨"browser", [⟨0, "t", "info", "a"⟩]⟩, some [("info", true)], none, false, 0⟩
        : LogTableProps)
        ≠ ⟨some ⟨"browser", [⟨0, "t", "info", "b"⟩]⟩, some [("info", true)], none, false, 0⟩
    ∧ componentWillReceiveProps jsEngine
        ⟨some ⟨"browser", [⟨0, "t", "info", "a"⟩]⟩, some [("info", true)], none, false, 0⟩
        ⟨some ⟨"browser", [⟨0, "t", "info", "b"⟩]⟩, some [("info", true)], none, false, 0⟩
        st0 = Except.ok st0 := by
  refine ⟨by decide, by decide, by decide⟩

/-- Claim C5 as amended: the coordinator recomputes the pipeline exactly when
the record source appeared, both sources are present with different length or
different logical type, the level filter changed value-by-value, or the
search text or the only-show-matches flag changed — source replacement with
equal length and type is not detected; presenting identical parameters twice
triggers no recomputation and returns the state (displayed sequence and
match list included) unchanged; a search-cursor change alone only re-enables
match following, and a row selection alone leaves both lists untouched. -/
theorem change_detection_characterization (E : RegexEngine) (p n : LogTableProps)
    (s : LogTableState) (i j : Nat) :
    (shouldRecompute p n = true ↔
      ((p.logFile = none ∧ n.logFile ≠ none)
        ∨ (∃ a b, p.logFile = some a ∧ n.logFile = some b
            ∧ (a.logEntries.length ≠ b.logEntries.length ∨ a.logType ≠ b.logType))
        ∨ didFilterChange p.levelFilter n.levelFilter = true
        ∨ p.search ≠ n.search
        ∨ p.showOnlySearchResults ≠ n.showOnlySearchResults))
    ∧ componentWillReceiveProps E p p s = Except.ok s
    ∧ componentWillReceiveProps E p { p with searchIndex := i } s
        = Except.ok (if p.searchIndex != i then { s with ignoreSearchIndex := false } else s)
    ∧ (onRowClick s j).sortedList = s.sortedList
    ∧ (onRowClick s j).searchList = s.searchList := by
  refine ⟨?_, ?_, ?_, rfl, rfl⟩
  · unfold shouldRecompute searchChanged fileChanged
    cases hp : p.logFile with
    | none =>
      cases hn : n.logFile with
      | none => simp [bne_iff_ne]
      | some bf => simp [bne_iff_ne]
    | some af =>
      cases hn : n.logFile with
      | none => simp [bne_iff_ne]
      | some bf => simp [bne_iff_ne]; tauto
  · unfold componentWillReceiveProps
    rw [shouldRecompute_self]
    simp [Except.map]
  · have hrec : shouldRecompute p { p with searchIndex := i } = false := by
      unfold shouldRecompute searchChanged fileChanged
      simp [didFilterChange_self]
      cases p.logFile <;> simp
    unfold componentWillReceiveProps
    rw [hrec]
    cases hij : (p.searchIndex != i) <;> simp [hij, Except.map]

/-- Witness for Claim C10 at `S = "a"` over records `"ab"`, `"b"`: the filter
keeps exactly the record `"ab"` and the index list is exactly `[0]`. -/
theorem single_inclusion_witness :
    doSearchFilter jsEngine "a" [⟨0, "t", "info", "ab"⟩, ⟨1, "t", "info", "b"⟩]
      = Except.ok [⟨0, "t", "info", "ab"⟩]
    ∧ doSearchIndex jsEngine "a" [⟨0, "t", "info", "ab"⟩, ⟨1, "t", "info", "b"⟩]
      = Except.ok [0] := by
  have h := single_inclusion_search_correct jsEngine "a"
    [⟨0, "t", "info", "ab"⟩, ⟨1, "t", "info", "b"⟩]
    (by decide) (by decide) (by decide) (by decide)
  exact ⟨h.1.trans (by decide), h.2.1.trans (by decide)⟩
